import Mathlib

/-!
Shallow embedding of the customer-similarity-graph program (`src/part3`):
`customer.rs` (Customer, get_shared_characteristics, find_top_shared_characteristics,
print_top_shared_characteristics), `graph_utils.rs` (construct_graph, determine_neighbor,
calculate_centrality, identify_high_centrality_nodes) and the churn partition of `main.rs`.

Modelling conventions:
- Rust `i32` fields are `Int`; the program only ever reads the numeric fields through
  `to_string()`, which agrees with Lean's `toString : Int → String` (optional minus then
  decimal digits).
- The single `f64` field `avg_card_utilize` is likewise only ever read through
  `to_string()`; we carry the rendered string directly, and theorems that need the fact
  that it came from a float take the hypothesis `numeric_render`, which captures exactly
  the shape of Rust's float rendering (optional leading minus, digits and a dot).
- `petgraph::Graph<&Customer, (), Undirected>` is a node list plus a list of
  (source, target) edge pairs, in insertion order; `add_edge` appends (petgraph's `Graph`
  keeps parallel edges).
- `f64` values flowing through the centrality pipeline are exact (unit edge weights, sums
  of small integers), so they are modelled by `EF`: an exact rational together with the
  IEEE specials `inf` and `nan` on the nonnegative subdomain the program exercises.
- `std::collections::HashMap` iteration order is unspecified; tallies are association
  lists in first-insertion order, and where the program's result depends on the
  iteration order the order is an explicit function parameter `ord`.
-/

/-! ## Data model (`customer.rs`) -/

structure OneHotEncoding where
  education_level : String
  marital_status : String
  income_range : String
  card_type : String
deriving DecidableEq

structure Customer where
  churn_status : String
  age : Int
  one_hot_encoding : OneHotEncoding
  mon_w_bank : Int
  num_product_purchased : Int
  mon_inactive : Int
  num_contact : Int
  card_credit_limit : Int
  evolving_bal : Int
  transactions_amount : Int
  num_transctions : Int
  avg_card_utilize : String
deriving DecidableEq

/-! ## Similarity predicate (`graph_utils.rs`: determine_neighbor, and
`customer.rs`: get_shared_characteristics) -/

/-- The closure `is_similar` from the source: plain string equality. -/
def is_similar (value_a value_b : String) : Bool :=
  value_a == value_b

/-- The closure `in_same_group` from the source: both strings literally equal
the same group label. -/
def in_same_group (value_a value_b : String) (groups : List String) : Bool :=
  groups.any (fun group => value_a == group && value_b == group)

/-- The running count of shared characteristics inside `determine_neighbor`
(12 checks; note that `card_credit_limit` and `evolving_bal` are not among them). -/
def shared_characteristics_count (customer_a customer_b : Customer) : Nat :=
  (if is_similar (toString customer_a.age) (toString customer_b.age) then 1 else 0)
  + (if is_similar customer_a.one_hot_encoding.education_level customer_b.one_hot_encoding.education_level then 1 else 0)
  + (if is_similar customer_a.one_hot_encoding.marital_status customer_b.one_hot_encoding.marital_status then 1 else 0)
  + (if is_similar customer_a.one_hot_encoding.income_range customer_b.one_hot_encoding.income_range then 1 else 0)
  + (if is_similar customer_a.one_hot_encoding.card_type customer_b.one_hot_encoding.card_type then 1 else 0)
  + (if in_same_group (toString customer_a.mon_w_bank) (toString customer_b.mon_w_bank)
        ["20-30", "30-40", "40-50", ">50"] then 1 else 0)
  + (if is_similar (toString customer_a.num_product_purchased) (toString customer_b.num_product_purchased) then 1 else 0)
  + (if is_similar (toString customer_a.mon_inactive) (toString customer_b.mon_inactive) then 1 else 0)
  + (if is_similar (toString customer_a.num_contact) (toString customer_b.num_contact) then 1 else 0)
  + (if in_same_group (toString customer_a.transactions_amount) (toString customer_b.transactions_amount)
        ["500<", "500-1000", "1000-1500", "1500-2000", ">2000"] then 1 else 0)
  + (if in_same_group (toString customer_a.num_transctions) (toString customer_b.num_transctions)
        ["<10", "10-20", "20-30", "30-40", ">40"] then 1 else 0)
  + (if in_same_group customer_a.avg_card_utilize customer_b.avg_card_utilize
        ["<0.100", "0.100-0.200", "0.200-0.300", "0.300-0.400", ">0.400"] then 1 else 0)

/-- `determine_neighbor` from `graph_utils.rs`: the count of shared
characteristics meets the threshold 2. -/
def determine_neighbor (customer_a customer_b : Customer) : Bool :=
  shared_characteristics_count customer_a customer_b ≥ 2

/-- `get_shared_characteristics` from `customer.rs`: one formatted entry per
shared attribute, pushed in source order (14 checks: the 12 of
`determine_neighbor` plus `card_credit_limit` and `evolving_bal`). -/
def get_shared_characteristics (customer_a customer_b : Customer) : List String :=
  (if is_similar (toString customer_a.age) (toString customer_b.age) then
    ["Age: " ++ toString customer_a.age] else [])
  ++ (if is_similar customer_a.one_hot_encoding.education_level customer_b.one_hot_encoding.education_level then
    ["Education Level: " ++ customer_a.one_hot_encoding.education_level] else [])
  ++ (if is_similar customer_a.one_hot_encoding.marital_status customer_b.one_hot_encoding.marital_status then
    ["Marital Status: " ++ customer_a.one_hot_encoding.marital_status] else [])
  ++ (if is_similar customer_a.one_hot_encoding.income_range customer_b.one_hot_encoding.income_range then
    ["Income Range: " ++ customer_a.one_hot_encoding.income_range] else [])
  ++ (if is_similar customer_a.one_hot_encoding.card_type customer_b.one_hot_encoding.card_type then
    ["Card Type: " ++ customer_a.one_hot_encoding.card_type] else [])
  ++ (if in_same_group (toString customer_a.mon_w_bank) (toString customer_b.mon_w_bank)
        ["20-30", "30-40", "40-50", ">50"] then
    ["Mon W Bank: " ++ toString customer_a.mon_w_bank] else [])
  ++ (if is_similar (toString customer_a.num_product_purchased) (toString customer_b.num_product_purchased) then
    ["Number of Products Purchased: " ++ toString customer_a.num_product_purchased] else [])
  ++ (if is_similar (toString customer_a.mon_inactive) (toString customer_b.mon_inactive) then
    ["Month inactive: " ++ toString customer_a.mon_inactive] else [])
  ++ (if is_similar (toString customer_a.num_contact) (toString customer_b.num_contact) then
    ["Number of Contacts from Bank (past 12 months): " ++ toString customer_a.num_contact] else [])
  ++ (if in_same_group (toString customer_a.card_credit_limit) (toString customer_b.card_credit_limit)
        ["5000<", "5000-10000", "10000-15000", "15000-20000", "20000-25000", "25000-30000", ">30000"] then
    ["Card's Credit Limit: " ++ toString customer_a.card_credit_limit] else [])
  ++ (if in_same_group (toString customer_a.evolving_bal) (toString customer_b.evolving_bal)
        ["500<", "500-1000", "1000-1500", "1500-2000", ">2000"] then
    ["Evolving Balance on Card: " ++ toString customer_a.evolving_bal] else [])
  ++ (if in_same_group (toString customer_a.transactions_amount) (toString customer_b.transactions_amount)
        ["500<", "500-1000", "1000-1500", "1500-2000", ">2000"] then
    ["Total Dollar Amount of Transaction via Card: " ++ toString customer_a.transactions_amount] else [])
  ++ (if in_same_group (toString customer_a.num_transctions) (toString customer_b.num_transctions)
        ["<10", "10-20", "20-30", "30-40", ">40"] then
    ["Total Number of Transactions via Card: " ++ toString customer_a.num_transctions] else [])
  ++ (if in_same_group customer_a.avg_card_utilize customer_b.avg_card_utilize
        ["<0.100", "0.100-0.200", "0.200-0.300", "0.300-0.400", ">0.400"] then
    ["Average Card Utilization Ratio: " ++ customer_a.avg_card_utilize] else [])

/-! ## Renderings of numeric fields

The program compares stringified numbers against bucket labels. A rendering of an
`i32` or `f64` is an optional leading minus followed by decimal digits and at most
one dot; no bucket label has that shape, which is what makes the bucket checks
vacuous on numeric data. -/

/-- Shape of the `to_string()` rendering of a Rust number: a leading digit or minus
sign, followed by digits or a decimal dot. -/
def numeric_render (s : String) : Bool :=
  match s.data with
  | [] => false
  | c :: rest => (c.isDigit || c == '-') && rest.all (fun d => d.isDigit || d == '.')

theorem digitChar_isDigit (m : Nat) (h : m < 10) : (Nat.digitChar m).isDigit = true := by
  have hm : m = 0 ∨ m = 1 ∨ m = 2 ∨ m = 3 ∨ m = 4 ∨ m = 5 ∨ m = 6 ∨ m = 7 ∨ m = 8 ∨ m = 9 := by
    omega
  rcases hm with h | h | h | h | h | h | h | h | h | h <;> subst h <;> decide

theorem toDigitsCore_digits (fuel : Nat) :
    ∀ (n : Nat) (acc : List Char), (∀ c ∈ acc, c.isDigit = true) →
      ∀ c ∈ Nat.toDigitsCore 10 fuel n acc, c.isDigit = true := by
  induction fuel with
  | zero =>
    intro n acc hacc c hc
    simpa [Nat.toDigitsCore] using hacc c (by simpa [Nat.toDigitsCore] using hc)
  | succ f ih =>
    intro n acc hacc c hc
    rw [Nat.toDigitsCore] at hc
    by_cases hz : n / 10 = 0
    · simp only [hz, if_pos rfl] at hc
      rcases List.mem_cons.mp hc with h | h
      · subst h; exact digitChar_isDigit _ (Nat.mod_lt _ (by norm_num))
      · exact hacc c h
    · simp only [hz, if_neg hz] at hc
      refine ih (n / 10) _ ?_ c hc
      intro d hd
      rcases List.mem_cons.mp hd with h | h
      · subst h; exact digitChar_isDigit _ (Nat.mod_lt _ (by norm_num))
      · exact hacc d h

theorem toDigitsCore_length_le (fuel : Nat) :
    ∀ (n : Nat) (acc : List Char), acc.length ≤ (Nat.toDigitsCore 10 fuel n acc).length := by
  induction fuel with
  | zero => intro n acc; simp [Nat.toDigitsCore]
  | succ f ih =>
    intro n acc
    rw [Nat.toDigitsCore]
    by_cases hz : n / 10 = 0
    · simp [hz]
    · simp only [hz, if_neg hz]
      calc acc.length ≤ (Nat.digitChar (n % 10) :: acc).length := by simp
        _ ≤ _ := ih (n / 10) _

theorem nat_repr_digits (n : Nat) : ∀ c ∈ (Nat.repr n).data, c.isDigit = true := by
  intro c hc
  have : (Nat.repr n).data = Nat.toDigitsCore 10 (n + 1) n [] := rfl
  rw [this] at hc
  exact toDigitsCore_digits (n + 1) n [] (by simp) c hc

theorem nat_repr_ne_nil (n : Nat) : (Nat.repr n).data ≠ [] := by
  have hd : (Nat.repr n).data = Nat.toDigitsCore 10 (n + 1) n [] := rfl
  intro h
  rw [hd, Nat.toDigitsCore] at h
  by_cases hz : n / 10 = 0
  · simp [hz] at h
  · rw [if_neg hz] at h
    have := toDigitsCore_length_le n (n / 10) [Nat.digitChar (n % 10)]
    rw [h] at this
    simp at this

/-- The rendering of any integer has the numeric shape: a minus sign can appear
only in front, every other character is a decimal digit. -/
theorem int_numeric_render (i : Int) : numeric_render (toString i) = true := by
  have htos : toString i = Int.repr i := rfl
  rw [htos]
  cases i with
  | ofNat m =>
    have hd : (Int.repr (Int.ofNat m)).data = (Nat.repr m).data := rfl
    unfold numeric_render
    rw [hd]
    rcases h : (Nat.repr m).data with _ | ⟨c, rest⟩
    · exact absurd h (nat_repr_ne_nil m)
    · have hds := nat_repr_digits m
      rw [h] at hds
      simp only [Bool.and_eq_true, Bool.or_eq_true]
      constructor
      · exact Or.inl (hds c (by simp))
      · rw [List.all_eq_true]
        intro d hdm
        simp only [Bool.or_eq_true]
        exact Or.inl (hds d (by simp [hdm]))
  | negSucc m =>
    have hd : (Int.repr (Int.negSucc m)).data = '-' :: (Nat.repr (m + 1)).data := by
      show (("-" ++ Nat.repr (m + 1)) : String).data = _
      rw [String.data_append]
      rfl
    unfold numeric_render
    rw [hd]
    simp only [Bool.and_eq_true, Bool.or_eq_true]
    constructor
    · exact Or.inr (by decide)
    · rw [List.all_eq_true]
      intro d hdm
      simp only [Bool.or_eq_true]
      exact Or.inl (nat_repr_digits (m + 1) d hdm)

/-- If every label in the list fails the numeric-rendering shape while `s` has it,
the group check cannot fire: `s` equals no label. -/
theorem in_same_group_false_of_numeric (L : List String) (s t : String)
    (hL : ∀ g ∈ L, numeric_render g = false) (hs : numeric_render s = true) :
    in_same_group s t L = false := by
  unfold in_same_group
  rw [List.any_eq_false]
  intro g hg
  have hne : s ≠ g := by
    intro h; rw [h] at hs; rw [hL g hg] at hs; exact Bool.false_ne_true hs
  simp [hne]

theorem tenure_group_never (a b : Int) :
    in_same_group (toString a) (toString b) ["20-30", "30-40", "40-50", ">50"] = false :=
  in_same_group_false_of_numeric _ _ _ (by decide) (int_numeric_render a)

theorem credit_group_never (a b : Int) :
    in_same_group (toString a) (toString b)
      ["5000<", "5000-10000", "10000-15000", "15000-20000", "20000-25000", "25000-30000", ">30000"] = false :=
  in_same_group_false_of_numeric _ _ _ (by decide) (int_numeric_render a)

theorem balance_group_never (a b : Int) :
    in_same_group (toString a) (toString b)
      ["500<", "500-1000", "1000-1500", "1500-2000", ">2000"] = false :=
  in_same_group_false_of_numeric _ _ _ (by decide) (int_numeric_render a)

theorem txcount_group_never (a b : Int) :
    in_same_group (toString a) (toString b)
      ["<10", "10-20", "20-30", "30-40", ">40"] = false :=
  in_same_group_false_of_numeric _ _ _ (by decide) (int_numeric_render a)

theorem utilization_group_never (s t : String) (hs : numeric_render s = true) :
    in_same_group s t ["<0.100", "0.100-0.200", "0.200-0.300", "0.300-0.400", ">0.400"] = false :=
  in_same_group_false_of_numeric _ _ _ (by decide) hs

/-! ## Sample customers (the unit tests of `customer.rs`) -/

/-- `create_sample_customer1` from the tests in `customer.rs`. -/
def sample_customer1 : Customer :=
  { churn_status := "Existing Customer"
    age := 25
    one_hot_encoding :=
      { education_level := "Graduate"
        marital_status := "Single"
        income_range := "$40K - $60K"
        card_type := "Silver" }
    mon_w_bank := 12
    num_product_purchased := 5
    mon_inactive := 2
    num_contact := 8
    card_credit_limit := 15000
    evolving_bal := 1200
    transactions_amount := 5000
    num_transctions := 25
    avg_card_utilize := "0.4" }

/-- `create_sample_customer2` from the tests in `customer.rs`. -/
def sample_customer2 : Customer :=
  { churn_status := "Attrited Customer"
    age := 30
    one_hot_encoding :=
      { education_level := "Graduate"
        marital_status := "Single"
        income_range := "$40K - $60K"
        card_type := "Silver" }
    mon_w_bank := 8
    num_product_purchased := 3
    mon_inactive := 3
    num_contact := 12
    card_credit_limit := 12000
    evolving_bal := 800
    transactions_amount := 3000
    num_transctions := 15
    avg_card_utilize := "0.3" }

/-- Sanity anchor: the expected result of `test_shared_characteristics`. -/
theorem sample_shared_characteristics :
    get_shared_characteristics sample_customer1 sample_customer2 =
      ["Education Level: Graduate", "Marital Status: Single",
       "Income Range: $40K - $60K", "Card Type: Silver"] := by
  decide

/-- Sanity anchor: the expected result of `test_determine_neighbor`. -/
theorem sample_determine_neighbor :
    determine_neighbor sample_customer1 sample_customer2 = true := by
  decide

/-! ## Symmetry of the similarity predicate -/

theorem string_beq_comm (x y : String) : (x == y) = (y == x) := by
  by_cases h : x = y
  · subst h; rfl
  · have h1 : (x == y) = false := by simp [h]
    have h2 : (y == x) = false := by simp [Ne.symm h]
    rw [h1, h2]

theorem is_similar_comm (x y : String) : is_similar x y = is_similar y x :=
  string_beq_comm x y

theorem in_same_group_comm (x y : String) (L : List String) :
    in_same_group x y L = in_same_group y x L := by
  unfold in_same_group
  have : (fun group => x == group && y == group) = (fun group => y == group && x == group) := by
    funext g
    exact Bool.and_comm (x == g) (y == g)
  rw [this]

theorem shared_characteristics_count_comm (a b : Customer) :
    shared_characteristics_count a b = shared_characteristics_count b a := by
  unfold shared_characteristics_count
  rw [is_similar_comm (toString a.age),
    is_similar_comm a.one_hot_encoding.education_level,
    is_similar_comm a.one_hot_encoding.marital_status,
    is_similar_comm a.one_hot_encoding.income_range,
    is_similar_comm a.one_hot_encoding.card_type,
    in_same_group_comm (toString a.mon_w_bank),
    is_similar_comm (toString a.num_product_purchased),
    is_similar_comm (toString a.mon_inactive),
    is_similar_comm (toString a.num_contact),
    in_same_group_comm (toString a.transactions_amount),
    in_same_group_comm (toString a.num_transctions),
    in_same_group_comm a.avg_card_utilize]

theorem determine_neighbor_comm (a b : Customer) :
    determine_neighbor a b = determine_neighbor b a := by
  unfold determine_neighbor
  rw [shared_characteristics_count_comm]

/-- C9: the neighbor predicate `determine_neighbor` is symmetric:
`is_neighbor(a,b) == is_neighbor(b,a)` for every pair of customers. -/
theorem determine_neighbor_symmetric (a b : Customer) :
    determine_neighbor a b = determine_neighbor b a :=
  determine_neighbor_comm a b

/-! ## The neighbor threshold (C5) -/

theorem get_shared_characteristics_length (a b : Customer) :
    (get_shared_characteristics a b).length = shared_characteristics_count a b := by
  unfold get_shared_characteristics shared_characteristics_count
  rw [credit_group_never a.card_credit_limit b.card_credit_limit,
    balance_group_never a.evolving_bal b.evolving_bal]
  simp only [List.length_append, apply_ite List.length, List.length_singleton,
    List.length_nil, if_false, Bool.false_eq_true]
  omega

/-- C5: `determine_neighbor` returns true iff the count over its 12 attribute
checks is at least 2, and equivalently iff `get_shared_characteristics`
enumerates at least 2 shared attributes (its two extra checks, credit limit and
balance, never fire on integer-rendered fields). -/
theorem determine_neighbor_threshold (a b : Customer) :
    (determine_neighbor a b = true ↔ 2 ≤ shared_characteristics_count a b)
    ∧ (determine_neighbor a b = true ↔ 2 ≤ (get_shared_characteristics a b).length) := by
  constructor
  · simp [determine_neighbor, ge_iff_le]
  · rw [get_shared_characteristics_length]
    simp [determine_neighbor, ge_iff_le]

/-! ## Self-similarity (C3) -/

/-- C3 counterexample: applied to the first sample customer and itself,
`get_shared_characteristics` returns 8 entries, not 12: the six bucketed
checks never fire, even on identical records. -/
theorem get_shared_characteristics_self_not_twelve :
    (get_shared_characteristics sample_customer1 sample_customer1).length = 8
    ∧ (get_shared_characteristics sample_customer1 sample_customer1).length ≠ 12 := by
  decide

/-- C3 amended: for every customer whose utilization field is a numeric
rendering, `traits_shared(a,a)` returns exactly the 8 exact-match trait
entries; the 6 bucketed attributes (tenure, credit limit, balance, transaction
amount, transaction count, utilization) are absent because a stringified
number never equals a bucket label. -/
theorem get_shared_characteristics_self (a : Customer)
    (h : numeric_render a.avg_card_utilize = true) :
    get_shared_characteristics a a =
      ["Age: " ++ toString a.age,
       "Education Level: " ++ a.one_hot_encoding.education_level,
       "Marital Status: " ++ a.one_hot_encoding.marital_status,
       "Income Range: " ++ a.one_hot_encoding.income_range,
       "Card Type: " ++ a.one_hot_encoding.card_type,
       "Number of Products Purchased: " ++ toString a.num_product_purchased,
       "Month inactive: " ++ toString a.mon_inactive,
       "Number of Contacts from Bank (past 12 months): " ++ toString a.num_contact] := by
  unfold get_shared_characteristics
  rw [tenure_group_never a.mon_w_bank a.mon_w_bank,
    credit_group_never a.card_credit_limit a.card_credit_limit,
    balance_group_never a.evolving_bal a.evolving_bal,
    balance_group_never a.transactions_amount a.transactions_amount,
    txcount_group_never a.num_transctions a.num_transctions,
    utilization_group_never a.avg_card_utilize a.avg_card_utilize h]
  simp [is_similar]

/-- C3 amended witness at the first sample customer. -/
theorem get_shared_characteristics_self_witness :
    numeric_render sample_customer1.avg_card_utilize = true
    ∧ get_shared_characteristics sample_customer1 sample_customer1 =
      ["Age: " ++ toString sample_customer1.age,
       "Education Level: " ++ sample_customer1.one_hot_encoding.education_level,
       "Marital Status: " ++ sample_customer1.one_hot_encoding.marital_status,
       "Income Range: " ++ sample_customer1.one_hot_encoding.income_range,
       "Card Type: " ++ sample_customer1.one_hot_encoding.card_type,
       "Number of Products Purchased: " ++ toString sample_customer1.num_product_purchased,
       "Month inactive: " ++ toString sample_customer1.mon_inactive,
       "Number of Contacts from Bank (past 12 months): " ++ toString sample_customer1.num_contact] :=
  ⟨by decide, get_shared_characteristics_self sample_customer1 (by decide)⟩

/-! ## Bucket labels are literal string matches (C4) -/

/-- C4: a bucketed attribute counts as shared only when both stringified
values literally equal the same label of its fixed list (the definitional
characterization of `in_same_group`), and on integer- or float-rendered
fields the check never fires: the label arrays never classify numeric values
into ranges. -/
theorem in_same_group_literal_only (a b : Customer) :
    (∀ (va vb : String) (L : List String),
      in_same_group va vb L = true ↔ ∃ gl ∈ L, va = gl ∧ vb = gl)
    ∧ in_same_group (toString a.mon_w_bank) (toString b.mon_w_bank)
        ["20-30", "30-40", "40-50", ">50"] = false
    ∧ in_same_group (toString a.card_credit_limit) (toString b.card_credit_limit)
        ["5000<", "5000-10000", "10000-15000", "15000-20000", "20000-25000", "25000-30000", ">30000"] = false
    ∧ in_same_group (toString a.evolving_bal) (toString b.evolving_bal)
        ["500<", "500-1000", "1000-1500", "1500-2000", ">2000"] = false
    ∧ in_same_group (toString a.transactions_amount) (toString b.transactions_amount)
        ["500<", "500-1000", "1000-1500", "1500-2000", ">2000"] = false
    ∧ in_same_group (toString a.num_transctions) (toString b.num_transctions)
        ["<10", "10-20", "20-30", "30-40", ">40"] = false
    ∧ (numeric_render a.avg_card_utilize = true →
        in_same_group a.avg_card_utilize b.avg_card_utilize
          ["<0.100", "0.100-0.200", "0.200-0.300", "0.300-0.400", ">0.400"] = false) :=
  ⟨fun va vb L => by simp [in_same_group, List.any_eq_true, Bool.and_eq_true, beq_iff_eq],
   tenure_group_never a.mon_w_bank b.mon_w_bank,
   credit_group_never a.card_credit_limit b.card_credit_limit,
   balance_group_never a.evolving_bal b.evolving_bal,
   balance_group_never a.transactions_amount b.transactions_amount,
   txcount_group_never a.num_transctions b.num_transctions,
   fun h => utilization_group_never a.avg_card_utilize b.avg_card_utilize h⟩

/-- C4 witness at the sample customers. -/
theorem in_same_group_literal_only_witness :
    numeric_render sample_customer1.avg_card_utilize = true
    ∧ in_same_group sample_customer1.avg_card_utilize sample_customer2.avg_card_utilize
        ["<0.100", "0.100-0.200", "0.200-0.300", "0.300-0.400", ">0.400"] = false :=
  ⟨by decide,
   (in_same_group_literal_only sample_customer1 sample_customer2).2.2.2.2.2.2 (by decide)⟩

/-! ## Graph builder (`graph_utils.rs`: construct_graph)

`petgraph::Graph<&Customer, (), Undirected>` is modelled as the list of node
weights (node i wraps customer i, in insertion order) plus the edge list in
insertion order. `Graph::add_edge` keeps parallel edges, so the edge list is
exactly the sequence of `add_edge` calls. -/

structure PGraph where
  nodes : List Customer
  edges : List (Nat × Nat)
deriving DecidableEq

/-- The body of the inner loop of `construct_graph`: the edge appended for the
ordered pair (i, j), if any. `graph.node_weight(..).unwrap()` is the in-range
list lookup. -/
def edge_candidate (customers : List Customer) (i j : Nat) : Option (Nat × Nat) :=
  match customers.get? i, customers.get? j with
  | some customer_a, some customer_b =>
    if i != j && determine_neighbor customer_a customer_b then some (i, j) else none
  | _, _ => none

/-- `construct_graph` from `graph_utils.rs`: N nodes, and one edge appended for
every ordered pair (i, j) passing the neighbor test. -/
def construct_graph (customers : List Customer) : PGraph :=
  { nodes := customers
    edges := (List.range customers.length).flatMap (fun i =>
      (List.range customers.length).filterMap (edge_candidate customers i)) }

/-- An undirected petgraph edge connects its endpoints in both directions. -/
def PGraph.adjacent (g : PGraph) (i j : Nat) : Prop :=
  (i, j) ∈ g.edges ∨ (j, i) ∈ g.edges

/-- Whether `construct_graph` emits the ordered pair (i, j). -/
def ok_edge (customers : List Customer) (i j : Nat) : Bool :=
  match customers.get? i, customers.get? j with
  | some customer_a, some customer_b => i != j && determine_neighbor customer_a customer_b
  | _, _ => false

theorem edge_candidate_eq (cs : List Customer) (i j : Nat) :
    edge_candidate cs i j = if ok_edge cs i j then some (i, j) else none := by
  unfold edge_candidate ok_edge
  cases cs.get? i <;> cases cs.get? j <;> simp

theorem ok_edge_lt (cs : List Customer) (i j : Nat) (h : ok_edge cs i j = true) :
    i < cs.length ∧ j < cs.length := by
  unfold ok_edge at h
  rcases hi : cs.get? i with _ | a <;> rw [hi] at h
  · simp at h
  · rcases hj : cs.get? j with _ | b <;> rw [hj] at h
    · simp at h
    · rcases List.get?_eq_some.mp hi with ⟨hilt, _⟩
      rcases List.get?_eq_some.mp hj with ⟨hjlt, _⟩
      exact ⟨hilt, hjlt⟩

theorem bne_nat_comm (i j : Nat) : (i != j) = (j != i) := by
  by_cases h : i = j
  · subst h; rfl
  · have h1 : (i != j) = true := by simp [h]
    have h2 : (j != i) = true := by simp [Ne.symm h]
    rw [h1, h2]

theorem ok_edge_symm (cs : List Customer) (i j : Nat) :
    ok_edge cs i j = ok_edge cs j i := by
  unfold ok_edge
  rcases hi : cs.get? i with _ | a <;> rcases hj : cs.get? j with _ | b
  · rfl
  · rfl
  · rfl
  · show (i != j && determine_neighbor a b) = (j != i && determine_neighbor b a)
    rw [bne_nat_comm, determine_neighbor_comm]

theorem filterMap_guard {β : Type} (l : List Nat) (q : Nat → Bool) (f : Nat → β) :
    (l.filterMap (fun j => if q j then some (f j) else none)) = (l.filter q).map f := by
  induction l with
  | nil => rfl
  | cons x xs ih =>
    by_cases hq : q x = true
    · simp [List.filterMap_cons, List.filter_cons, hq, ih]
    · simp [List.filterMap_cons, List.filter_cons, hq, ih]

theorem count_flatMap_sum {α β : Type} [BEq β] (l : List α) (f : α → List β) (y : β) :
    ((l.flatMap f).count y) = (l.map (fun a => (f a).count y)).sum := by
  induction l with
  | nil => rfl
  | cons x xs ih => simp [List.flatMap_cons, List.count_append, ih]

theorem count_pair_map (i y : Nat) (L : List Nat) :
    ((L.map (fun j => (i, j))).count (i, y)) = L.count y := by
  induction L with
  | nil => rfl
  | cons x xs ih =>
    rw [List.map_cons, List.count_cons, List.count_cons, ih]
    have : (((i, x) : Nat × Nat) == (i, y)) = (x == y) := by
      show (i == i && x == y) = (x == y)
      simp
    rw [this]

theorem count_range_eq (y N : Nat) : (List.range N).count y = if y < N then 1 else 0 := by
  induction N with
  | zero => simp
  | succ n ih =>
    rw [List.range_succ, List.count_append, ih, List.count_singleton]
    by_cases h : y < n
    · have h2 : y < n + 1 := by omega
      have h3 : (n == y) = false := by simp; omega
      simp [h, h2, h3]
    · by_cases he : n = y
      · subst he
        simp [h]
      · have h3 : (n == y) = false := by simp [he]
        have h4 : ¬(y < n + 1) := by omega
        simp [h, h3, h4]

theorem inner_filterMap_eq (cs : List Customer) (i : Nat) :
    (List.range cs.length).filterMap (edge_candidate cs i)
      = ((List.range cs.length).filter (ok_edge cs i)).map (fun j => (i, j)) := by
  have h : (List.range cs.length).filterMap (edge_candidate cs i)
      = (List.range cs.length).filterMap (fun j => if ok_edge cs i j then some (i, j) else none) := by
    apply List.filterMap_congr
    intro j _
    exact edge_candidate_eq cs i j
  rw [h, filterMap_guard]

theorem inner_count_ne (cs : List Customer) (i x y : Nat) (hne : x ≠ i) :
    (((List.range cs.length).filter (ok_edge cs i)).map (fun j => (i, j))).count (x, y) = 0 := by
  rw [List.count_eq_zero]
  intro hmem
  rcases List.mem_map.mp hmem with ⟨j, _, hj⟩
  exact hne (congrArg Prod.fst hj).symm

theorem inner_count_eq (cs : List Customer) (i y : Nat) :
    (((List.range cs.length).filter (ok_edge cs i)).map (fun j => (i, j))).count (i, y)
      = if ok_edge cs i y = true then 1 else 0 := by
  rw [count_pair_map]
  by_cases hok : ok_edge cs i y = true
  · rw [if_pos hok, List.count_filter hok, count_range_eq,
      if_pos (ok_edge_lt cs i y hok).2]
  · rw [if_neg hok, List.count_eq_zero]
    intro hmem
    exact hok (List.mem_filter.mp hmem).2

theorem sum_map_range_single (N x c : Nat) (h : x < N) :
    ((List.range N).map (fun i => if i = x then c else 0)).sum = c := by
  induction N with
  | zero => omega
  | succ n ih =>
    rw [List.range_succ, List.map_append, List.sum_append]
    by_cases hxn : x = n
    · subst hxn
      have hz : ((List.range x).map (fun i => if i = x then c else 0)).sum = 0 := by
        apply List.sum_eq_zero
        intro v hv
        rcases List.mem_map.mp hv with ⟨i, hi, hiv⟩
        have : i ≠ x := Nat.ne_of_lt (List.mem_range.mp hi)
        rw [if_neg this] at hiv
        exact hiv.symm
      simp [hz]
    · have hxlt : x < n := by omega
      rw [ih hxlt]
      have hnx : (if n = x then c else 0) = 0 := if_neg (fun hh => hxn hh.symm)
      simp [hnx]

theorem construct_graph_edge_count (cs : List Customer) (x y : Nat) :
    (construct_graph cs).edges.count (x, y) = if ok_edge cs x y = true then 1 else 0 := by
  show ((List.range cs.length).flatMap (fun i =>
      (List.range cs.length).filterMap (edge_candidate cs i))).count (x, y) = _
  rw [count_flatMap_sum]
  have hmap : (List.range cs.length).map (fun i =>
        ((List.range cs.length).filterMap (edge_candidate cs i)).count (x, y))
      = (List.range cs.length).map
          (fun i => if i = x then (if ok_edge cs x y = true then 1 else 0) else 0) := by
    apply List.map_congr_left
    intro i _
    rw [inner_filterMap_eq]
    by_cases hix : i = x
    · subst hix
      rw [if_pos rfl, inner_count_eq]
    · rw [if_neg hix, inner_count_ne cs i x y (fun h => hix h.symm)]
  rw [hmap]
  by_cases hx : x < cs.length
  · exact sum_map_range_single cs.length x _ hx
  · have hok : ok_edge cs x y = false := by
      by_cases h : ok_edge cs x y = true
      · exact absurd (ok_edge_lt cs x y h).1 hx
      · exact Bool.eq_false_iff.mpr h
    rw [hok]
    simp only [Bool.false_eq_true, if_false]
    apply List.sum_eq_zero
    intro v hv
    rcases List.mem_map.mp hv with ⟨i, hi, hiv⟩
    by_cases hix : i = x
    · subst hix
      exact absurd (List.mem_range.mp hi) hx
    · rw [if_neg hix] at hiv
      exact hiv.symm

theorem construct_graph_mem_edges (cs : List Customer) (x y : Nat) :
    (x, y) ∈ (construct_graph cs).edges ↔ ok_edge cs x y = true := by
  rw [← List.count_pos_iff, construct_graph_edge_count]
  by_cases h : ok_edge cs x y = true <;> simp [h]

theorem countP_bne_range (i N : Nat) (h : i < N) :
    (List.range N).countP (fun j => j != i) = N - 1 := by
  induction N with
  | zero => omega
  | succ n ih =>
    rw [List.range_succ, List.countP_append]
    by_cases hin : i = n
    · subst hin
      have h1 : (List.range i).countP (fun j => j != i) = i := by
        have hall : (List.range i).countP (fun j => j != i) = (List.range i).length :=
          List.countP_eq_length.mpr
            (fun j hj => by simp [Nat.ne_of_lt (List.mem_range.mp hj)])
        rw [hall, List.length_range]
      have h2 : ([i].countP (fun j => j != i)) = 0 := by simp
      rw [h1, h2]
      omega
    · have hlt : i < n := by omega
      rw [ih hlt]
      have h2 : ([n].countP (fun j => j != i)) = 1 := by simp [Ne.symm hin]
      rw [h2]
      omega

theorem construct_graph_length_le (cs : List Customer) :
    (construct_graph cs).edges.length ≤ cs.length * (cs.length - 1) := by
  show ((List.range cs.length).flatMap (fun i =>
      (List.range cs.length).filterMap (edge_candidate cs i))).length ≤ _
  rw [List.length_flatMap]
  have hb : ∀ x ∈ (List.range cs.length).map
      (List.length ∘ fun i => (List.range cs.length).filterMap (edge_candidate cs i)),
      x ≤ cs.length - 1 := by
    intro x hx
    rcases List.mem_map.mp hx with ⟨i, hi, hxeq⟩
    have hilt : i < cs.length := List.mem_range.mp hi
    have hlen : ((List.range cs.length).filterMap (edge_candidate cs i)).length
        = (List.range cs.length).countP (ok_edge cs i) := by
      rw [inner_filterMap_eq, List.length_map, ← List.countP_eq_length_filter]
    have hmono : (List.range cs.length).countP (ok_edge cs i)
        ≤ (List.range cs.length).countP (fun j => j != i) := by
      apply List.countP_mono_left
      intro j _ hok
      unfold ok_edge at hok
      rcases hgi : cs.get? i with _ | a <;> rw [hgi] at hok
      · simp at hok
      · rcases hgj : cs.get? j with _ | b <;> rw [hgj] at hok
        · simp at hok
        · have : (i != j) = true := (Bool.and_eq_true _ _ |>.mp hok).1
          rw [bne_nat_comm] at this
          exact this
    rw [← hxeq]
    simp only [Function.comp_apply]
    rw [hlen]
    calc (List.range cs.length).countP (ok_edge cs i)
        ≤ (List.range cs.length).countP (fun j => j != i) := hmono
      _ = cs.length - 1 := countP_bne_range i cs.length hilt
  calc ((List.range cs.length).map (List.length ∘ fun i =>
        (List.range cs.length).filterMap (edge_candidate cs i))).sum
      ≤ ((List.range cs.length).map (List.length ∘ fun i =>
        (List.range cs.length).filterMap (edge_candidate cs i))).length • (cs.length - 1) :=
        List.sum_le_card_nsmul _ _ hb
    _ = cs.length * (cs.length - 1) := by
        rw [List.length_map, List.length_range, smul_eq_mul]

/-- C1 counterexample: on the two (neighboring) sample customers,
`construct_graph` emits both ordered orientations (0,1) and (1,0) as separate
edges — petgraph `Graph` keeps parallel edges — so the edge count is 2, above
the claimed bound N(N−1)/2 = 1. -/
theorem construct_graph_parallel_edges :
    (construct_graph [sample_customer1, sample_customer2]).edges = [(0, 1), (1, 0)]
    ∧ ¬((construct_graph [sample_customer1, sample_customer2]).edges.length
        ≤ [sample_customer1, sample_customer2].length
          * ([sample_customer1, sample_customer2].length - 1) / 2) := by
  decide

/-- C1 amended: `construct_graph` returns a graph whose nodes are exactly the
input records in order; the ordered pair (i, j) appears as an edge exactly once
when i ≠ j and `is_neighbor(record_i, record_j)` holds (hence each unordered
neighbor pair contributes exactly two parallel edges, one per orientation);
an edge connecting i and j exists iff the pair passes the neighbor test; and
the total edge count is ≤ N(N−1) (not N(N−1)/2). -/
theorem construct_graph_spec (customers : List Customer) (i j : Nat) (a b : Customer)
    (hi : customers.get? i = some a) (hj : customers.get? j = some b) :
    (construct_graph customers).nodes = customers
    ∧ (construct_graph customers).edges.count (i, j)
        = (if i ≠ j ∧ determine_neighbor a b = true then 1 else 0)
    ∧ ((construct_graph customers).adjacent i j ↔ (i ≠ j ∧ determine_neighbor a b = true))
    ∧ (construct_graph customers).edges.length ≤ customers.length * (customers.length - 1) := by
  have hok : ok_edge customers i j = (i != j && determine_neighbor a b) := by
    unfold ok_edge
    rw [hi, hj]
  have hiff : ((i != j && determine_neighbor a b) = true)
      ↔ (i ≠ j ∧ determine_neighbor a b = true) := by
    simp [Bool.and_eq_true, bne_iff_ne]
  refine ⟨rfl, ?_, ?_, construct_graph_length_le customers⟩
  · rw [construct_graph_edge_count, hok, if_congr hiff rfl rfl]
  · unfold PGraph.adjacent
    rw [construct_graph_mem_edges, construct_graph_mem_edges,
      ok_edge_symm customers j i, or_self, hok]
    exact hiff

/-- C1 amended witness at the two sample customers. -/
theorem construct_graph_spec_witness :
    ([sample_customer1, sample_customer2].get? 0 = some sample_customer1)
    ∧ ([sample_customer1, sample_customer2].get? 1 = some sample_customer2)
    ∧ ((construct_graph [sample_customer1, sample_customer2]).nodes
        = [sample_customer1, sample_customer2]
      ∧ (construct_graph [sample_customer1, sample_customer2]).edges.count (0, 1)
          = (if (0 : Nat) ≠ 1 ∧ determine_neighbor sample_customer1 sample_customer2 = true
             then 1 else 0)
      ∧ ((construct_graph [sample_customer1, sample_customer2]).adjacent 0 1 ↔
          ((0 : Nat) ≠ 1 ∧ determine_neighbor sample_customer1 sample_customer2 = true))
      ∧ (construct_graph [sample_customer1, sample_customer2]).edges.length
          ≤ [sample_customer1, sample_customer2].length
            * ([sample_customer1, sample_customer2].length - 1)) :=
  ⟨by decide, by decide,
   construct_graph_spec [sample_customer1, sample_customer2] 0 1
     sample_customer1 sample_customer2 (by decide) (by decide)⟩

/-! ## Exact model of the f64 values in the centrality pipeline

`EF` carries an exact rational plus the IEEE specials that actually arise
(`inf` from `f64::INFINITY` for unreachable pairs, `nan` from 0.0/0.0). The
operations implement IEEE behaviour on the nonnegative subdomain the program
exercises (no negative infinities or signed zeros arise there), but with
exact rational arithmetic in place of binary64 rounding. In the distance
pipeline every value is exactly representable (unit edge weights, hop counts,
sums of small integers), so exactness is faithful there and the NaN/zero/
positive distinctions it proves are rounding-robust. In the selector,
centralities and their sum need not be exactly representable in binary64, so
theorems about it only characterise the selection relative to the threshold
as computed by the model's arithmetic, and assert no property whose truth
would depend on how binary64 rounds that sum; concrete selector inputs used
against claims are chosen with every intermediate value exactly
representable, so those runs coincide with the program's. -/

inductive EF where
  | nan : EF
  | inf : EF
  | fin : ℚ → EF
deriving DecidableEq

def EF.add : EF → EF → EF
  | nan, _ => nan
  | _, nan => nan
  | inf, _ => inf
  | _, inf => inf
  | fin a, fin b => fin (a + b)

def EF.mul : EF → EF → EF
  | nan, _ => nan
  | _, nan => nan
  | inf, inf => inf
  | inf, fin b => if b = 0 then nan else inf
  | fin a, inf => if a = 0 then nan else inf
  | fin a, fin b => fin (a * b)

def EF.div : EF → EF → EF
  | nan, _ => nan
  | _, nan => nan
  | inf, inf => nan
  | inf, fin _ => inf
  | fin _, inf => fin 0
  | fin a, fin b => if b = 0 then (if a = 0 then nan else inf) else fin (a / b)

/-- IEEE `<`: every comparison against NaN is false. -/
def EF.lt : EF → EF → Bool
  | nan, _ => false
  | _, nan => false
  | inf, _ => false
  | fin _, inf => true
  | fin a, fin b => a < b

/-- `Iterator::sum::<f64>()`: left fold of `+` from 0.0. -/
def EF.sumList (l : List EF) : EF :=
  l.foldl EF.add (EF.fin 0)

/-! ## Shortest paths (`petgraph::algo::dijkstra` with unit edge cost) -/

/-- The neighbors of node i in an undirected petgraph graph: every edge
touching i, read off the edge list. (petgraph iterates a node's incident
edges most-recently-added first; downstream only the neighbor multiset and
the all-false/any-true structure matter, so the edge-list order is used.) -/
def PGraph.neighbors (g : PGraph) (i : Nat) : List Nat :=
  g.edges.flatMap (fun e =>
    (if e.1 = i then [e.2] else []) ++ (if e.2 = i then [e.1] else []))

/-- Reachability from i to j by a path of at most k edges. -/
def reach (g : PGraph) : Nat → Nat → Nat → Bool
  | 0, i, j => i == j
  | k + 1, i, j => i == j || (g.neighbors i).any (fun m => reach g k m j)

/-- The hop count of a shortest path from i to j, if one exists: the least
k with a path of ≤ k edges (a shortest path uses fewer edges than there are
nodes). This is the distance `dijkstra(graph, i, Some(j), |_| 1.0)` returns. -/
def shortest_path_len (g : PGraph) (i j : Nat) : Option Nat :=
  (List.range g.nodes.length).find? (fun k => reach g k i j)

/-- `*distance_map.get(&nodew).unwrap_or(&f64::INFINITY)`: the dijkstra
distance, or +inf when j is unreachable from i. -/
def dijkstra_dist (g : PGraph) (i j : Nat) : EF :=
  match shortest_path_len g i j with
  | some d => EF.fin (d : ℚ)
  | none => EF.inf

/-- The distance `calculate_centrality` uses for the ordered pair (i, j):
when j was an earlier outer node its stored map already holds the i entry, so
the symmetric lookup is reused; otherwise dijkstra runs for (i, j). -/
def all_pair_dist (g : PGraph) (i j : Nat) : EF :=
  if j < i then dijkstra_dist g j i else dijkstra_dist g i j

/-! ## Centrality engine (`graph_utils.rs`: calculate_centrality) -/

/-- `calculate_centrality` from `graph_utils.rs`: for every index into the
given customer list (NOT the positions of those customers in the graph), the
closeness centrality `(customers.len() - 1) / distance_sum`, summing the
distances in the full graph between the plain indices 0..customers.len().
The distance map's values are summed; `EF.add` is commutative and
associative, so the unspecified HashMap value order is irrelevant. -/
def calculate_centrality (g : PGraph) (customers : List Customer) : List (Nat × EF) :=
  (List.range customers.length).map (fun node =>
    (node, EF.div (EF.fin ((customers.length - 1 : Nat) : ℚ))
      (EF.sumList (((List.range customers.length).filter (fun nodew => nodew != node)).map
        (all_pair_dist g node)))))

/-- The churn split of `main.rs`:
`customers.iter().cloned().partition(churn_status == "Existing Customer")`,
returning (not churned, churned). -/
def churn_partition (customers : List Customer) : List Customer × List Customer :=
  customers.partition (fun customer => customer.churn_status == "Existing Customer")

/-- Follows the spec's words, for comparison with `calculate_centrality`:
the subset is given by the graph positions of its members, each member gets
(|subset| − 1) divided by the sum of full-graph shortest-path distances to
every other member. -/
def calculate_centrality_spec (g : PGraph) (members : List Nat) : List (Nat × EF) :=
  members.map (fun i =>
    (i, EF.div (EF.fin ((members.length - 1 : Nat) : ℚ))
      (EF.sumList ((members.filter (fun j => j != i)).map (fun j => dijkstra_dist g i j)))))

/-! ## High-centrality selector (`graph_utils.rs`: identify_high_centrality_nodes) -/

/-- `identify_high_centrality_nodes`: keep the nodes whose centrality is
strictly above `threshold_factor * sum / len` (the map iteration order only
permutes the output list; membership is what the claims are about). -/
def identify_high_centrality_nodes (centrality : List (Nat × EF)) (threshold_factor : EF) :
    List Nat :=
  centrality.filterMap (fun p =>
    if EF.lt (EF.div (EF.mul threshold_factor (EF.sumList (centrality.map Prod.snd)))
        (EF.fin (centrality.length : ℚ))) p.2
    then some p.1 else none)

/-! ## The centrality pipeline never invents NaN from ≥ 2 members (C6) -/

theorem EF.add_ne_nan (x y : EF) (hx : x ≠ EF.nan) (hy : y ≠ EF.nan) :
    EF.add x y ≠ EF.nan := by
  cases x <;> cases y <;> simp_all [EF.add]

theorem EF.foldl_add_ne_nan (l : List EF) (hl : ∀ x ∈ l, x ≠ EF.nan) :
    ∀ init : EF, init ≠ EF.nan → l.foldl EF.add init ≠ EF.nan := by
  induction l with
  | nil => intro init h; simpa using h
  | cons x xs ih =>
    intro init h
    rw [List.foldl_cons]
    exact ih (fun y hy => hl y (List.mem_cons_of_mem x hy))
      (EF.add init x) (EF.add_ne_nan init x h (hl x (List.mem_cons_self x xs)))

theorem EF.sumList_ne_nan (l : List EF) (hl : ∀ x ∈ l, x ≠ EF.nan) :
    EF.sumList l ≠ EF.nan :=
  EF.foldl_add_ne_nan l hl (EF.fin 0) (by simp)

theorem dijkstra_dist_ne_nan (g : PGraph) (i j : Nat) :
    dijkstra_dist g i j ≠ EF.nan := by
  unfold dijkstra_dist
  cases shortest_path_len g i j <;> simp

theorem all_pair_dist_ne_nan (g : PGraph) (i j : Nat) :
    all_pair_dist g i j ≠ EF.nan := by
  unfold all_pair_dist
  by_cases h : j < i <;> simp [h, dijkstra_dist_ne_nan]

theorem EF.div_pos_num_ne_nan (m : ℚ) (hm : m ≠ 0) (S : EF) (hS : S ≠ EF.nan) :
    EF.div (EF.fin m) S ≠ EF.nan := by
  cases S with
  | nan => exact absurd rfl hS
  | inf => simp [EF.div]
  | fin q =>
    by_cases hq : q = 0
    · simp [EF.div, hq, hm]
    · simp [EF.div, hq]

/-- C6 counterexample: for a singleton subset the distance sum is empty
(0.0) and the numerator is 0.0, so the node's centrality is 0.0/0.0 = NaN. -/
theorem calculate_centrality_singleton_nan :
    calculate_centrality (construct_graph [sample_customer1]) [sample_customer1]
      = [(0, EF.nan)] := by
  have h1 : ([sample_customer1] : List Customer).length = 1 := rfl
  have hr : List.range 1 = [0] := rfl
  unfold calculate_centrality
  rw [h1, hr]
  simp [EF.sumList, EF.div]

/-- C6 amended: for every graph and every customer subset with at least two
members, `calculate_centrality` never produces NaN, and a node whose distance
sum is infinite gets centrality exactly 0 (division of the finite numerator by
an infinite sum); singleton subsets, by contrast, yield 0.0/0.0 = NaN. -/
theorem calculate_centrality_no_nan (g : PGraph) (subset : List Customer)
    (h2 : 2 ≤ subset.length) :
    (∀ p ∈ calculate_centrality g subset, p.2 ≠ EF.nan)
    ∧ (∀ p ∈ calculate_centrality g subset,
        EF.sumList (((List.range subset.length).filter (fun nodew => nodew != p.1)).map
          (all_pair_dist g p.1)) = EF.inf → p.2 = EF.fin 0) := by
  have hm : ((subset.length - 1 : Nat) : ℚ) ≠ 0 := by
    have : subset.length - 1 ≠ 0 := by omega
    exact_mod_cast Nat.cast_ne_zero.mpr this
  constructor
  · intro p hp
    rcases List.mem_map.mp hp with ⟨node, _, hpe⟩
    rw [← hpe]
    apply EF.div_pos_num_ne_nan _ hm
    apply EF.sumList_ne_nan
    intro x hx
    rcases List.mem_map.mp hx with ⟨j, _, hxe⟩
    rw [← hxe]
    exact all_pair_dist_ne_nan g node j
  · intro p hp hsum
    rcases List.mem_map.mp hp with ⟨node, _, hpe⟩
    rw [← hpe]
    rw [← hpe] at hsum
    simp only at hsum
    rw [hsum]
    simp [EF.div]

/-- C6 amended witness on a two-customer subset. -/
theorem calculate_centrality_no_nan_witness :
    2 ≤ ([sample_customer1, sample_customer2] : List Customer).length
    ∧ (∀ p ∈ calculate_centrality (construct_graph [sample_customer1, sample_customer2])
        [sample_customer1, sample_customer2], p.2 ≠ EF.nan) :=
  ⟨by decide,
   (calculate_centrality_no_nan (construct_graph [sample_customer1, sample_customer2])
     [sample_customer1, sample_customer2] (by decide)).1⟩

/-! ## The centrality engine measures graph positions 0..k−1, not the subset (C2) -/

/-- An attrited customer sharing no attribute with any other test customer. -/
def cust_attrited1 : Customer :=
  { churn_status := "Attrited Customer"
    age := 40
    one_hot_encoding :=
      { education_level := "Uneducated"
        marital_status := "Divorced"
        income_range := "$120K +"
        card_type := "Blue" }
    mon_w_bank := 1
    num_product_purchased := 1
    mon_inactive := 7
    num_contact := 1
    card_credit_limit := 1
    evolving_bal := 1
    transactions_amount := 1
    num_transctions := 1
    avg_card_utilize := "0.11" }

/-- A second attrited customer sharing no attribute with any other test customer. -/
def cust_attrited2 : Customer :=
  { churn_status := "Attrited Customer"
    age := 41
    one_hot_encoding :=
      { education_level := "Doctorate"
        marital_status := "Married"
        income_range := "Less than $40K"
        card_type := "Gold" }
    mon_w_bank := 2
    num_product_purchased := 9
    mon_inactive := 8
    num_contact := 2
    card_credit_limit := 3
    evolving_bal := 4
    transactions_amount := 5
    num_transctions := 6
    avg_card_utilize := "0.22" }

/-- Four customers: two existing ones (identical, hence adjacent as graph
nodes 0 and 1) followed by two isolated attrited ones (graph nodes 2 and 3). -/
def mixed_customers : List Customer :=
  [sample_customer1, sample_customer1, cust_attrited1, cust_attrited2]

/-- C2: evaluating the pipeline of `main.rs` on `mixed_customers`: the churned
subset is the two attrited customers sitting at graph positions 2 and 3
(mutually disconnected, so the spec assigns both centrality 0), yet
`calculate_centrality` keys its result by the plain indices 0 and 1 — the
first two nodes of the full graph, which are not even churned — and computes
both centralities from d(0,1) = 1, giving 1.0 each. -/
theorem calculate_centrality_subset_mismatch :
    (churn_partition mixed_customers).2 = [cust_attrited1, cust_attrited2]
    ∧ calculate_centrality (construct_graph mixed_customers)
        (churn_partition mixed_customers).2 = [(0, EF.fin 1), (1, EF.fin 1)]
    ∧ calculate_centrality_spec (construct_graph mixed_customers) [2, 3]
        = [(2, EF.fin 0), (3, EF.fin 0)] := by
  have hsp01 : shortest_path_len (construct_graph mixed_customers) 0 1 = some 1 := by decide
  have hsp23 : shortest_path_len (construct_graph mixed_customers) 2 3 = none := by decide
  have hsp32 : shortest_path_len (construct_graph mixed_customers) 3 2 = none := by decide
  have hd01 : all_pair_dist (construct_graph mixed_customers) 0 1 = EF.fin 1 := by
    unfold all_pair_dist
    rw [if_neg (by omega)]
    unfold dijkstra_dist
    rw [hsp01]
    norm_num
  have hd10 : all_pair_dist (construct_graph mixed_customers) 1 0 = EF.fin 1 := by
    unfold all_pair_dist
    rw [if_pos (by omega)]
    unfold dijkstra_dist
    rw [hsp01]
    norm_num
  refine ⟨by decide, ?_, ?_⟩
  · rw [show (churn_partition mixed_customers).2 = [cust_attrited1, cust_attrited2] from by decide]
    unfold calculate_centrality
    rw [show ([cust_attrited1, cust_attrited2] : List Customer).length = 2 from rfl]
    rw [show List.range 2 = [0, 1] from rfl]
    simp only [List.map_cons, List.map_nil]
    rw [show List.filter (fun w => w != 0) [0, 1] = [1] from rfl]
    rw [show List.filter (fun w => w != 1) [0, 1] = [0] from rfl]
    simp only [List.map_cons, List.map_nil]
    rw [hd01, hd10]
    rw [show EF.sumList [EF.fin 1] = EF.fin 1 from by
      simp [EF.sumList, EF.add]]
    rw [show EF.div (EF.fin ((2 - 1 : Nat) : ℚ)) (EF.fin 1) = EF.fin 1 from by
      norm_num [EF.div]]
  · unfold calculate_centrality_spec
    rw [show ([2, 3] : List Nat).length = 2 from rfl]
    simp only [List.map_cons, List.map_nil]
    rw [show List.filter (fun j => j != 2) [2, 3] = [3] from rfl]
    rw [show List.filter (fun j => j != 3) [2, 3] = [2] from rfl]
    simp only [List.map_cons, List.map_nil]
    rw [show dijkstra_dist (construct_graph mixed_customers) 2 3 = EF.inf from by
      unfold dijkstra_dist; rw [hsp23]]
    rw [show dijkstra_dist (construct_graph mixed_customers) 3 2 = EF.inf from by
      unfold dijkstra_dist; rw [hsp32]]
    rw [show EF.sumList [EF.inf] = EF.inf from by simp [EF.sumList, EF.add]]
    simp [EF.div]

/-! ## Selector theorems (C7) -/

/-- C7 counterexample: with both nodes at the same centrality 1.0 and
threshold multiplier 0.5, the threshold is (0.5 * 2.0) / 2.0 = 0.5 < 1.0 and
the selector returns every node, not the empty set. Every intermediate value
of this run (1.0, 2.0, 0.5) is exactly representable in binary64 and every
operation is exact, so the program performs the same arithmetic: the
identical-centrality clause is false of the program for multipliers below 1. -/
theorem identify_high_centrality_low_factor :
    identify_high_centrality_nodes [(0, EF.fin 1), (1, EF.fin 1)] (EF.fin (1 / 2)) = [0, 1]
    ∧ identify_high_centrality_nodes [(0, EF.fin 1), (1, EF.fin 1)] (EF.fin (1 / 2)) ≠ [] := by
  have hsum : EF.sumList ([(0, EF.fin 1), (1, EF.fin 1)].map Prod.snd) = EF.fin 2 := by
    show EF.sumList [EF.fin 1, EF.fin 1] = EF.fin 2
    show EF.fin (0 + 1 + 1) = EF.fin 2
    norm_num
  have hthr : EF.div (EF.mul (EF.fin (1 / 2))
      (EF.sumList ([(0, EF.fin 1), (1, EF.fin 1)].map Prod.snd)))
      (EF.fin (([(0, EF.fin 1), (1, EF.fin 1)] : List (Nat × EF)).length : ℚ))
      = EF.fin (1 / 2) := by
    rw [hsum]
    rw [show EF.mul (EF.fin (1 / 2)) (EF.fin 2) = EF.fin (1 / 2 * 2) from rfl]
    rw [show (([(0, EF.fin 1), (1, EF.fin 1)] : List (Nat × EF)).length : ℚ) = 2 by norm_num]
    rw [show EF.div (EF.fin (1 / 2 * 2)) (EF.fin 2)
      = EF.fin (1 / 2 * 2 / 2) from by norm_num [EF.div]]
    norm_num
  have hlt : EF.lt (EF.fin (2⁻¹ : ℚ)) (EF.fin 1) = true := by
    simp [EF.lt]
    norm_num
  constructor
  · unfold identify_high_centrality_nodes
    rw [hthr]
    simp [hlt, List.filterMap_cons]
  · unfold identify_high_centrality_nodes
    rw [hthr]
    simp [hlt, List.filterMap_cons]

/-- C7 amended: the selector returns exactly the entries whose centrality
compares strictly greater than the computed threshold `(multiplier * sum) /
count`, and an empty input map yields an empty output with no division
failure (the code divides 0.0 by 0.0 into a NaN threshold, and NaN
comparisons select nothing). No identical-centrality clause survives: it is
false for multipliers below 1 even on exactly representable values (the
counterexample), and for multipliers at or above 1 its truth depends on how
binary64 rounds the centrality sum (ten nodes at 0.1 sum below 1.0 and the
rounded threshold drops below 0.1), which the exact value model deliberately
does not decide. -/
theorem identify_high_centrality_spec
    (centrality : List (Nat × EF)) (m : EF) (node : Nat) :
    (node ∈ identify_high_centrality_nodes centrality m ↔
      ∃ c, (node, c) ∈ centrality ∧
        EF.lt (EF.div (EF.mul m (EF.sumList (centrality.map Prod.snd)))
          (EF.fin (centrality.length : ℚ))) c = true)
    ∧ identify_high_centrality_nodes [] m = [] := by
  refine ⟨?_, rfl⟩
  unfold identify_high_centrality_nodes
  rw [List.mem_filterMap]
  constructor
  · rintro ⟨p, hp, hsome⟩
    by_cases hc : EF.lt (EF.div (EF.mul m (EF.sumList (centrality.map Prod.snd)))
        (EF.fin (centrality.length : ℚ))) p.2 = true
    · rw [if_pos hc] at hsome
      obtain rfl : p.1 = node := Option.some.inj hsome
      refine ⟨p.2, ?_, hc⟩
      rw [Prod.mk.eta]
      exact hp
    · rw [if_neg hc] at hsome
      exact absurd hsome (Option.noConfusion)
  · rintro ⟨c, hmem, hlt⟩
    exact ⟨(node, c), hmem, by rw [if_pos hlt]⟩

/-! ## Trait tally and top-4 selection (`customer.rs`: find_top_shared_characteristics)

The tally `characteristic_counts` is a `HashMap<String, usize>`; its content is
modelled as an association list in first-insertion order, and the unspecified
`into_iter` order is an explicit parameter `ord` (any permutation of the
content is a possible iteration order). `sort_by(|(_, c1), (_, c2)| c2.cmp(c1))`
is Rust's stable descending sort, modelled by a stable insertion sort. -/

/-- `*characteristic_counts.entry(characteristic).or_insert(0) += 1`. -/
def bump_count : List (String × Nat) → String → List (String × Nat)
  | [], s => [(s, 1)]
  | (t, c) :: rest, s =>
    if t = s then (t, c + 1) :: rest else (t, c) :: bump_count rest s

/-- Stand-in node weight for the unchecked lookup
`&customers[node_index.index()]` (the source panics out of range; every caller
guards the bound first, so the default is never observed in guarded calls). -/
def default_customer : Customer :=
  { churn_status := ""
    age := 0
    one_hot_encoding :=
      { education_level := ""
        marital_status := ""
        income_range := ""
        card_type := "" }
    mon_w_bank := 0
    num_product_purchased := 0
    mon_inactive := 0
    num_contact := 0
    card_credit_limit := 0
    evolving_bal := 0
    transactions_amount := 0
    num_transctions := 0
    avg_card_utilize := "0" }

/-- The tally loop of `find_top_shared_characteristics`: over every neighbor
with an in-bounds index, count each formatted shared trait. -/
def neighbor_tally (g : PGraph) (node : Nat) (customers : List Customer) :
    List (String × Nat) :=
  (g.neighbors node).foldl (fun acc neighbor_index =>
    if neighbor_index < customers.length then
      (get_shared_characteristics (customers.getD node default_customer)
        (customers.getD neighbor_index default_customer)).foldl bump_count acc
    else acc) []

/-- Insert into a descending-by-count list, after every earlier element with a
strictly larger count and before the first with an equal or smaller one — the
placement a stable descending sort gives. -/
def insert_desc (p : String × Nat) : List (String × Nat) → List (String × Nat)
  | [] => [p]
  | q :: rest => if p.2 < q.2 then q :: insert_desc p rest else p :: q :: rest

/-- Stable sort on descending count. -/
def sort_by_count_desc (l : List (String × Nat)) : List (String × Nat) :=
  l.foldr insert_desc []

/-- `find_top_shared_characteristics` from `customer.rs`: tally the traits
shared with each in-bounds neighbor, iterate the tally map in the unspecified
order `ord`, sort stably by descending count and keep the first 4. -/
def find_top_shared_characteristics (g : PGraph) (node : Nat)
    (customers : List Customer)
    (ord : List (String × Nat) → List (String × Nat)) : List (String × Nat) :=
  (sort_by_count_desc (ord (neighbor_tally g node customers))).take 4

theorem insert_desc_perm (p : String × Nat) (l : List (String × Nat)) :
    (insert_desc p l).Perm (p :: l) := by
  induction l with
  | nil => exact List.Perm.refl _
  | cons q rest ih =>
    unfold insert_desc
    by_cases h : p.2 < q.2
    · rw [if_pos h]
      exact (ih.cons q).trans (List.Perm.swap p q rest)
    · rw [if_neg h]

theorem sort_by_count_desc_perm (l : List (String × Nat)) :
    (sort_by_count_desc l).Perm l := by
  induction l with
  | nil => exact List.Perm.refl _
  | cons x xs ih =>
    show (insert_desc x (sort_by_count_desc xs)).Perm (x :: xs)
    exact (insert_desc_perm x (sort_by_count_desc xs)).trans (ih.cons x)

theorem insert_desc_sorted (p : String × Nat) (l : List (String × Nat))
    (h : l.Sorted (fun a b => b.2 ≤ a.2)) :
    (insert_desc p l).Sorted (fun a b => b.2 ≤ a.2) := by
  induction l with
  | nil => simp [insert_desc]
  | cons q rest ih =>
    obtain ⟨hq, hrest⟩ := List.sorted_cons.mp h
    unfold insert_desc
    by_cases hlt : p.2 < q.2
    · rw [if_pos hlt]
      apply List.sorted_cons.mpr
      constructor
      · intro b hb
        have hb2 : b ∈ p :: rest := ((insert_desc_perm p rest).mem_iff).mp hb
        rcases List.mem_cons.mp hb2 with hbp | hbr
        · rw [hbp]
          exact le_of_lt hlt
        · exact hq b hbr
      · exact ih hrest
    · rw [if_neg hlt]
      apply List.sorted_cons.mpr
      refine ⟨?_, h⟩
      intro b hb
      rcases List.mem_cons.mp hb with hbq | hbr
      · rw [hbq]
        exact not_lt.mp hlt
      · exact le_trans (hq b hbr) (not_lt.mp hlt)

theorem sort_by_count_desc_sorted (l : List (String × Nat)) :
    (sort_by_count_desc l).Sorted (fun a b => b.2 ≤ a.2) := by
  induction l with
  | nil => simp [sort_by_count_desc]
  | cons x xs ih =>
    show (insert_desc x (sort_by_count_desc xs)).Sorted (fun a b => b.2 ≤ a.2)
    exact insert_desc_sorted x (sort_by_count_desc xs) ih

/-- A customer sharing exactly the five attributes age, education, marital
status, income range and card type with `sample_customer1`. -/
def cust_five_shared : Customer :=
  { churn_status := "Existing Customer"
    age := 25
    one_hot_encoding :=
      { education_level := "Graduate"
        marital_status := "Single"
        income_range := "$40K - $60K"
        card_type := "Silver" }
    mon_w_bank := 99
    num_product_purchased := 77
    mon_inactive := 66
    num_contact := 55
    card_credit_limit := 44
    evolving_bal := 33
    transactions_amount := 22
    num_transctions := 11
    avg_card_utilize := "0.99" }

/-- Two nodes joined by one edge: node 0 has the single neighbor 1, and they
share five traits, so the tally holds five entries of count 1 each. -/
def tie_graph : PGraph :=
  { nodes := [sample_customer1, cust_five_shared]
    edges := [(0, 1)] }

/-- C8 counterexample: with five tied entries, two legal iteration orders of
the tally map (identity and reversal — any permutation can be a HashMap
iteration order) make `find_top_shared_characteristics` return two different
top-4 lists, so ties are not broken by original discovery order. -/
theorem find_top_shared_characteristics_order_dependent :
    ((neighbor_tally tie_graph 0 [sample_customer1, cust_five_shared]).reverse).Perm
      (neighbor_tally tie_graph 0 [sample_customer1, cust_five_shared])
    ∧ find_top_shared_characteristics tie_graph 0 [sample_customer1, cust_five_shared]
        (fun l => l.reverse)
      ≠ find_top_shared_characteristics tie_graph 0 [sample_customer1, cust_five_shared]
        (fun l => l) := by
  constructor
  · exact List.reverse_perm _
  · decide

/-- C8 amended: for every iteration order of the tally map (any permutation of
its content), `find_top_shared_characteristics` returns min(4, number of
distinct traits) entries drawn from the tally with their correct counts, and
every returned entry's count is at least every omitted entry's count (the
stable descending sort guarantees the selection, but the order among tied
counts follows the map's unspecified iteration order, not discovery order). -/
theorem find_top_shared_characteristics_spec (g : PGraph) (node : Nat)
    (customers : List Customer)
    (ord : List (String × Nat) → List (String × Nat))
    (hord : ∀ l, (ord l).Perm l) :
    (find_top_shared_characteristics g node customers ord).length
      = min 4 (neighbor_tally g node customers).length
    ∧ (∀ p ∈ find_top_shared_characteristics g node customers ord,
        p ∈ neighbor_tally g node customers)
    ∧ (∀ p ∈ find_top_shared_characteristics g node customers ord,
        ∀ q ∈ neighbor_tally g node customers,
          q ∉ find_top_shared_characteristics g node customers ord → q.2 ≤ p.2) := by
  have hperm : (sort_by_count_desc (ord (neighbor_tally g node customers))).Perm
      (neighbor_tally g node customers) :=
    (sort_by_count_desc_perm (ord (neighbor_tally g node customers))).trans
      (hord (neighbor_tally g node customers))
  have hsort : (sort_by_count_desc (ord (neighbor_tally g node customers))).Sorted
      (fun a b => b.2 ≤ a.2) :=
    sort_by_count_desc_sorted (ord (neighbor_tally g node customers))
  refine ⟨?_, ?_, ?_⟩
  · unfold find_top_shared_characteristics
    rw [List.length_take, hperm.length_eq]
  · intro p hp
    exact (hperm.mem_iff).mp (List.take_subset 4 _ hp)
  · intro p hp q hq hnq
    have hqs : q ∈ sort_by_count_desc (ord (neighbor_tally g node customers)) :=
      (hperm.mem_iff).mpr hq
    have hsplit : sort_by_count_desc (ord (neighbor_tally g node customers))
        = (sort_by_count_desc (ord (neighbor_tally g node customers))).take 4
          ++ (sort_by_count_desc (ord (neighbor_tally g node customers))).drop 4 :=
      (List.take_append_drop 4 _).symm
    have hqd : q ∈ (sort_by_count_desc (ord (neighbor_tally g node customers))).drop 4 := by
      rw [hsplit] at hqs
      rcases List.mem_append.mp hqs with hqt | hqd
      · exact absurd hqt hnq
      · exact hqd
    have hpw : ((sort_by_count_desc (ord (neighbor_tally g node customers))).take 4
        ++ (sort_by_count_desc (ord (neighbor_tally g node customers))).drop 4).Pairwise
          (fun a b => b.2 ≤ a.2) := by
      rw [← hsplit]
      exact hsort
    exact (List.pairwise_append.mp hpw).2.2 p hp q hqd

/-- C8 amended witness with the identity iteration order on the tie graph. -/
theorem find_top_shared_characteristics_spec_witness :
    (find_top_shared_characteristics tie_graph 0 [sample_customer1, cust_five_shared]
      (fun l => l)).length
    = min 4 (neighbor_tally tie_graph 0 [sample_customer1, cust_five_shared]).length :=
  (find_top_shared_characteristics_spec tie_graph 0 [sample_customer1, cust_five_shared]
    (fun l => l) (fun l => List.Perm.refl l)).1

/-! ## Trait aggregator (`customer.rs`: print_top_shared_characteristics)

The function prints a report and returns `Result<(), _>`; it is modelled as a
pure function returning the printed lines in order together with the result.
The two tally maps are association lists in first-insertion order (the
HashMap iteration order only permutes report lines; the claims are about the
result value, the empty-input message and the invalid-index handling).
`toString` on a rational stands in for Rust's float formatting inside report
lines; no claim inspects those characters. -/

/-- `f64::round`: round half away from zero — equal to round half up on the
nonnegative values that occur. -/
def EF.round_val : EF → EF
  | EF.fin q => EF.fin ((round q : ℤ) : ℚ)
  | EF.inf => EF.inf
  | EF.nan => EF.nan

def EF.repr_str : EF → String
  | EF.fin q => toString q
  | EF.inf => "inf"
  | EF.nan => "NaN"

/-- `(value as f64 / total as f64) * 100.0`, then `(x * 10.0).round() / 10.0`. -/
def rounded_percent (num den : Nat) : EF :=
  EF.div
    (EF.round_val (EF.mul (EF.mul (EF.div (EF.fin (num : ℚ)) (EF.fin (den : ℚ)))
      (EF.fin 100)) (EF.fin 10)))
    (EF.fin 10)

/-- `*map.entry(s).or_insert(0) += c`. -/
def bump_count_by : List (String × Nat) → String → Nat → List (String × Nat)
  | [], s, c => [(s, c)]
  | (t, c0) :: rest, s, c =>
    if t = s then (t, c0 + c) :: rest else (t, c0) :: bump_count_by rest s c

/-- `separated_counts.entry(key).or_insert_with(HashMap::new)` followed by
`*entry.entry(value).or_insert(0) += count`. -/
def bump_nested : List (String × List (String × Nat)) → String → String → Nat →
    List (String × List (String × Nat))
  | [], key, val, c => [(key, [(val, c)])]
  | (k, inner) :: rest, key, val, c =>
    if k = key then (k, bump_count_by inner val c) :: rest
    else (k, inner) :: bump_nested rest key val c

/-- The split at the first colon underlying `characteristic.splitn(2, ":")`. -/
def split_first_colon : List Char → Option (List Char × List Char)
  | [] => none
  | c :: rest =>
    if c = ':' then some ([], rest)
    else
      match split_first_colon rest with
      | none => none
      | some (a, b) => some (c :: a, b)

/-- `s.splitn(2, ":").collect::<Vec<_>>()`. -/
def splitn2_colon (s : String) : List String :=
  match split_first_colon s.data with
  | none => [s]
  | some (a, b) => [⟨a⟩, ⟨b⟩]

/-- `str::trim` (drop whitespace from both ends). -/
def trim_str (s : String) : String :=
  ⟨((s.data.dropWhile Char.isWhitespace).reverse.dropWhile Char.isWhitespace).reverse⟩

/-- Update for one `(characteristic, count)` pair of a node's top-4 list:
bump the flat total, and when the trait parses as `category: value` bump the
nested per-category tally. -/
def tally_entry
    (st : List (String × Nat) × List (String × List (String × Nat)) × List String)
    (pc : String × Nat) :
    List (String × Nat) × List (String × List (String × Nat)) × List String :=
  (bump_count_by st.1 pc.1 pc.2,
   (if (splitn2_colon pc.1).length = 2 then
      bump_nested st.2.1 (trim_str ((splitn2_colon pc.1).getD 0 ""))
        (trim_str ((splitn2_colon pc.1).getD 1 "")) pc.2
    else st.2.1),
   st.2.2)

/-- The body of the loop over high-centrality nodes: an in-bounds node
contributes its top-4 shared traits to the tallies (an empty top-4 list
contributes nothing, like the source's `continue`); an out-of-bounds node
only logs `Invalid node index: {}` and is skipped. -/
def agg_step (g : PGraph) (customers : List Customer)
    (ord : List (String × Nat) → List (String × Nat))
    (st : List (String × Nat) × List (String × List (String × Nat)) × List String)
    (node : Nat) :
    List (String × Nat) × List (String × List (String × Nat)) × List String :=
  if node < customers.length then
    (find_top_shared_characteristics g node customers ord).foldl tally_entry st
  else
    (st.1, st.2.1, st.2.2 ++ ["Invalid node index: " ++ toString node])

/-- The per-category report block. -/
def render_category (total_sum : Nat) (kv : String × List (String × Nat)) :
    List String :=
  (kv.1 ++ ", (Total Count: " ++ toString ((kv.2.map Prod.snd).sum) ++ " - "
    ++ EF.repr_str (rounded_percent ((kv.2.map Prod.snd).sum) total_sum) ++ "%)")
  :: kv.2.map (fun vc =>
    "  " ++ vc.1 ++ ": " ++ toString vc.2 ++ " ("
      ++ EF.repr_str (rounded_percent vc.2 ((kv.2.map Prod.snd).sum)) ++ "%)")

/-- `print_top_shared_characteristics` from `customer.rs`: the printed lines
in order, and the returned `Result` (always `Ok(())`). -/
def print_top_shared_characteristics (high_centrality_nodes : List Nat)
    (customers : List Customer) (g : PGraph)
    (ord : List (String × Nat) → List (String × Nat)) :
    List String × Except String Unit :=
  if high_centrality_nodes.isEmpty then
    (["No high centrality nodes."], Except.ok ())
  else
    (((high_centrality_nodes.foldl (agg_step g customers ord) ([], [], [])).2.2
      ++ ("Prevalent characteristic categories and their compositions:"
        :: ((high_centrality_nodes.foldl (agg_step g customers ord) ([], [], [])).2.1.flatMap
          (render_category
            (((high_centrality_nodes.foldl (agg_step g customers ord)
                ([], [], [])).2.1.map (fun kv => (kv.2.map Prod.snd).sum)).sum))))
      ++ [""]),
     Except.ok ())

theorem foldl_tally_third
    (l : List (String × Nat))
    (st : List (String × Nat) × List (String × List (String × Nat)) × List String) :
    (l.foldl tally_entry st).2.2 = st.2.2 := by
  induction l generalizing st with
  | nil => rfl
  | cons x xs ih =>
    rw [List.foldl_cons, ih]
    rfl

theorem foldl_tally_eq (l : List (String × Nat)) :
    ∀ (t : List (String × Nat)) (s : List (String × List (String × Nat)))
      (L : List String),
    l.foldl tally_entry (t, s, L)
      = ((l.foldl tally_entry (t, s, ([] : List String))).1,
         (l.foldl tally_entry (t, s, ([] : List String))).2.1, L) := by
  induction l with
  | nil => intro t s L; rfl
  | cons x xs ih =>
    intro t s L
    rw [List.foldl_cons, List.foldl_cons]
    have h1 : tally_entry (t, s, L) x
        = ((tally_entry (t, s, ([] : List String)) x).1,
           (tally_entry (t, s, ([] : List String)) x).2.1, L) := rfl
    rw [h1]
    rw [ih _ _ L]
    rfl

theorem agg_fold_first_two (g : PGraph) (customers : List Customer)
    (ord : List (String × Nat) → List (String × Nat)) :
    ∀ (ns : List Nat) (t : List (String × Nat))
      (s : List (String × List (String × Nat))) (L L' : List String),
    (ns.foldl (agg_step g customers ord) (t, s, L)).1
      = (ns.foldl (agg_step g customers ord) (t, s, L')).1
    ∧ (ns.foldl (agg_step g customers ord) (t, s, L)).2.1
      = (ns.foldl (agg_step g customers ord) (t, s, L')).2.1 := by
  intro ns
  induction ns with
  | nil => intro t s L L'; exact ⟨rfl, rfl⟩
  | cons n ns ih =>
    intro t s L L'
    rw [List.foldl_cons, List.foldl_cons]
    by_cases hn : n < customers.length
    · have e1 : agg_step g customers ord (t, s, L) n
          = (find_top_shared_characteristics g n customers ord).foldl
              tally_entry (t, s, L) := by
        unfold agg_step
        rw [if_pos hn]
      have e2 : agg_step g customers ord (t, s, L') n
          = (find_top_shared_characteristics g n customers ord).foldl
              tally_entry (t, s, L') := by
        unfold agg_step
        rw [if_pos hn]
      rw [e1, e2, foldl_tally_eq _ t s L, foldl_tally_eq _ t s L']
      exact ih _ _ L L'
    · have e1 : agg_step g customers ord (t, s, L) n
          = (t, s, L ++ ["Invalid node index: " ++ toString n]) := by
        unfold agg_step
        rw [if_neg hn]
      have e2 : agg_step g customers ord (t, s, L') n
          = (t, s, L' ++ ["Invalid node index: " ++ toString n]) := by
        unfold agg_step
        rw [if_neg hn]
      rw [e1, e2]
      exact ih t s _ _

theorem agg_step_decomp (g : PGraph) (customers : List Customer)
    (ord : List (String × Nat) → List (String × Nat)) :
    ∀ (nodes : List Nat)
      (st : List (String × Nat) × List (String × List (String × Nat)) × List String),
    nodes.foldl (agg_step g customers ord) st
      = (((nodes.filter (fun n => n < customers.length)).foldl
            (agg_step g customers ord) st).1,
         ((nodes.filter (fun n => n < customers.length)).foldl
            (agg_step g customers ord) st).2.1,
         st.2.2 ++ (nodes.filter (fun n => ¬ n < customers.length)).map
           (fun n => "Invalid node index: " ++ toString n)) := by
  intro nodes
  induction nodes with
  | nil => intro st; simp
  | cons n ns ih =>
    intro st
    by_cases hn : n < customers.length
    · rw [List.foldl_cons]
      rw [List.filter_cons_of_pos (by simpa using hn),
        List.filter_cons_of_neg (by simpa using hn)]
      rw [List.foldl_cons]
      have hthird : (agg_step g customers ord st n).2.2 = st.2.2 := by
        unfold agg_step
        rw [if_pos hn]
        exact foldl_tally_third _ st
      rw [ih (agg_step g customers ord st n), hthird]
    · rw [List.foldl_cons]
      rw [List.filter_cons_of_neg (by simpa using hn),
        List.filter_cons_of_pos (by simpa using hn)]
      have hstep : agg_step g customers ord st n
          = (st.1, st.2.1, st.2.2 ++ ["Invalid node index: " ++ toString n]) := by
        unfold agg_step
        rw [if_neg hn]
      rw [hstep, ih, List.map_cons]
      have hft := agg_fold_first_two g customers ord
        (ns.filter (fun n => n < customers.length)) st.1 st.2.1
        (st.2.2 ++ ["Invalid node index: " ++ toString n]) st.2.2
      rw [hft.1, hft.2]
      simp

/-- C10: the Trait Aggregator always returns `Ok(())`; an empty selection
prints the explicit "No high centrality nodes." notice instead of erroring;
and an out-of-range node index only contributes its "Invalid node index"
report line while the tallies equal those of the in-range nodes alone —
processing continues. -/
theorem print_top_shared_characteristics_total
    (ord : List (String × Nat) → List (String × Nat))
    (nodes : List Nat) (customers : List Customer) (g : PGraph) :
    (print_top_shared_characteristics nodes customers g ord).2 = Except.ok ()
    ∧ print_top_shared_characteristics [] customers g ord
        = (["No high centrality nodes."], Except.ok ())
    ∧ nodes.foldl (agg_step g customers ord) ([], [], [])
        = (((nodes.filter (fun n => n < customers.length)).foldl
              (agg_step g customers ord) ([], [], [])).1,
           ((nodes.filter (fun n => n < customers.length)).foldl
              (agg_step g customers ord) ([], [], [])).2.1,
           (nodes.filter (fun n => ¬ n < customers.length)).map
             (fun n => "Invalid node index: " ++ toString n)) := by
  refine ⟨?_, rfl, ?_⟩
  · unfold print_top_shared_characteristics
    by_cases h : nodes.isEmpty <;> simp [h]
  · have h := agg_step_decomp g customers ord nodes ([], [], [])
    simpa using h
